import Mathlib

/-!
# Explorer backend: transaction flattening, RPC fetch and block summaries

A shallow embedding of `backend/model/db/tx.go`, `backend/model2/blocks.go`
and `backend/task/task.go`.

* Go `int64` / `int32` / `int` values are `Int`; the one arithmetic operation
  whose overflow matters (`bInfo.Time * 3`, and the page offset) is wrapped
  with `wrapInt64`.
* Go `float64` values are `Float`; the code only copies them.
* Go slices are `List`s, the `nil` slice being `[]`.
* A Go run-time panic is the `error` side of `Except Panic`.
* A Go `(value, error)` result of a function of this repository is a pair;
  a pointer or an error is an `Option`, `none` standing for `nil`.
* Functions of other packages (`encoding/json`, `common`, `account`,
  `blkchain`, `model2/db`, and the two time formatters) are parameters,
  collected in `TxDeps` and `BlockDeps`.
* `main` and its goroutines are an interleaving of atomic steps on one
  shared state (`SchedState`, `step`, `run`).
-/

namespace Explorer

/-! ## Data model (`backend/model/db/tx.go`) -/

/-- Go `[]byte`. -/
abbrev Bytes := List Nat

/-- Go `error` values. -/
abbrev GoError := String

/-- The run-time panics that `ToFlatTx` can raise. -/
inductive Panic where
  | indexOutOfRange
  | typeAssertion
deriving DecidableEq

structure ActionRaw where
  Contract : String
  ActionName : String
  Data : String
deriving DecidableEq

structure SignatureRaw where
  Algorithm : Int
  Sig : String
  PubKey : String
deriving DecidableEq

/-- Field `Type_` is the Go field `Type`. -/
structure ReceiptRaw where
  Type_ : Int
  Content : String
deriving DecidableEq

structure TxReceiptRaw where
  GasUsage : Int
  SuccActionNum : Int
  Receipts : List ReceiptRaw
  StatusCode : Int
  StatusMessage : String
deriving DecidableEq

structure Tx where
  BlockNumber : Int
  Time : Int
  Hash : String
  Expiration : Int
  GasPrice : Int
  GasLimit : Int
  Actions : List ActionRaw
  Signers : List String
  Signs : List SignatureRaw
  Publisher : SignatureRaw
  Receipt : TxReceiptRaw
deriving DecidableEq

/-- The per-action record; `Id` is a `bson.ObjectId` (a Go string type). -/
structure FlatTx where
  Id : String
  BlockNumber : Int
  Time : Int
  Hash : String
  Expiration : Int
  GasPrice : Int
  GasLimit : Int
  Action : ActionRaw
  Signers : List String
  Signs : List SignatureRaw
  Publisher : String
  From : String
  To : String
  Amount : Float
  ActionIndex : Int
  ActionName : String

/-- A value stored in a Go `interface{}` by `json.Unmarshal`. -/
inductive Iface where
  | null
  | bool (b : Bool)
  | num (x : Float)
  | str (s : String)
  | arr (xs : List Iface)
  | obj (kvs : List (String × Iface))

/-! ### Values returned by the chain RPC client (`blkchain`) -/

structure RpcAction where
  Contract : String
  ActionName : String
  Data : String
deriving DecidableEq

structure RpcSignature where
  Algorithm : Int
  Sig : Bytes
  PubKey : Bytes
deriving DecidableEq

structure RpcTxRaw where
  Time : Int
  Expiration : Int
  GasPrice : Int
  GasLimit : Int
  Actions : List RpcAction
  Signers : List Bytes
  Signs : List RpcSignature
  Publisher : RpcSignature
deriving DecidableEq

structure RpcTxRes where
  TxRaw : RpcTxRaw
deriving DecidableEq

/-- Field `Type_` is the Go field `Type`. -/
structure RpcReceipt where
  Type_ : Int
  Content : String
deriving DecidableEq

structure RpcStatus where
  Code : Int
  Message : String
deriving DecidableEq

structure RpcTxReceiptRaw where
  GasUsage : Int
  SuccActionNum : Int
  Status : RpcStatus
  Receipts : List RpcReceipt
deriving DecidableEq

structure RpcTxReceiptRes where
  TxReceiptRaw : RpcTxReceiptRaw
deriving DecidableEq

/-- The functions of other packages that `tx.go` calls.

* `jsonUnmarshal data` is `json.Unmarshal([]byte(data), &tmp)` for a fresh
  `var tmp []interface{}`: the slice left in `tmp` and the returned error.
* `Base58Encode`, `Base58Decode` are those of `common`.
* `GetIDByPubkey` is that of `account`.
* `GetTxByHash`, `GetTxReceiptByTxHash` are those of `blkchain`; on a nil
  error they hand back a fully allocated response. -/
structure TxDeps where
  jsonUnmarshal : String → List Iface × Option GoError
  Base58Encode : Bytes → String
  Base58Decode : String → Bytes
  GetIDByPubkey : Bytes → String
  GetTxByHash : String → Except GoError RpcTxRes
  GetTxReceiptByTxHash : String → Except GoError RpcTxReceiptRes

/-! ## `ToFlatTx` -/

/-- Go `tmp[n]` on a slice: panics when `n` is out of range. -/
def sliceIndex (tmp : List Iface) (n : Nat) : Except Panic Iface :=
  match tmp[n]? with
  | some v => .ok v
  | none => .error .indexOutOfRange

/-- Go `x.(string)`. -/
def assertString : Iface → Except Panic String
  | .str s => .ok s
  | _ => .error .typeAssertion

/-- Go `x.(float64)`. -/
def assertFloat64 : Iface → Except Panic Float
  | .num x => .ok x
  | _ => .error .typeAssertion

/-- Lines 133-141 of `tx.go`: the `from`, `to`, `amount` locals of one loop
iteration. They start zero-valued and are assigned only for a `Transfer`. -/
def transferFields (d : TxDeps) (v : ActionRaw) : Except Panic (String × String × Float) :=
  if v.ActionName = "Transfer" then
    let tmp := (d.jsonUnmarshal v.Data).1
    match sliceIndex tmp 0 with
    | .error p => .error p
    | .ok x0 =>
      match assertString x0 with
      | .error p => .error p
      | .ok from_ =>
        match sliceIndex tmp 1 with
        | .error p => .error p
        | .ok x1 =>
          match assertString x1 with
          | .error p => .error p
          | .ok to_ =>
            match sliceIndex tmp 2 with
            | .error p => .error p
            | .ok x2 =>
              match assertFloat64 x2 with
              | .error p => .error p
              | .ok amount => .ok (from_, to_, amount)
  else
    .ok ("", "", 0)

/-- One iteration of the loop of `ToFlatTx` (lines 132-162), for the action
`v` at index `i`. -/
def flatTxAt (d : TxDeps) (tx : Tx) (i : Nat) (v : ActionRaw) : Except Panic FlatTx :=
  match transferFields d v with
  | .error p => .error p
  | .ok (from_, to_, amount) =>
    let pubKey := d.Base58Decode tx.Publisher.PubKey
    let publisher := d.GetIDByPubkey pubKey
    .ok {
      Id := ""
      BlockNumber := tx.BlockNumber
      Time := tx.Time
      Hash := tx.Hash
      Expiration := tx.Expiration
      GasPrice := tx.GasPrice
      GasLimit := tx.GasLimit
      Signers := tx.Signers
      Publisher := publisher
      Signs := tx.Signs
      Action := v
      From := from_
      To := to_
      Amount := amount
      ActionIndex := i
      ActionName := v.ActionName }

/-- The loop of `ToFlatTx` over the actions from index `i` on; the first
panicking iteration aborts it. -/
def flatTxLoop (d : TxDeps) (tx : Tx) : Nat → List ActionRaw → Except Panic (List FlatTx)
  | _, [] => .ok []
  | i, v :: vs =>
    match flatTxAt d tx i v with
    | .error p => .error p
    | .ok r =>
      match flatTxLoop d tx (i + 1) vs with
      | .error p => .error p
      | .ok rs => .ok (r :: rs)

/-- The method `(tx *Tx) ToFlatTx() []*FlatTx`. -/
def ToFlatTx (d : TxDeps) (tx : Tx) : Except Panic (List FlatTx) :=
  flatTxLoop d tx 0 tx.Actions

/-- The receiver `*tx` after a call of `ToFlatTx`, with the result of the
call: no statement of the method assigns through `tx`. -/
def ToFlatTxRun (d : TxDeps) (tx : Tx) : Tx × Except Panic (List FlatTx) :=
  (tx, ToFlatTx d tx)

/-! ## `RpcGetTxByHash` -/

/-- The function `byteSliceArrayToStringArray`. -/
def byteSliceArrayToStringArray (d : TxDeps) (origin : List Bytes) : List String :=
  origin.map d.Base58Encode

/-- The function `RpcGetTxByHash(txHash string) (*Tx, error)`. -/
def RpcGetTxByHash (d : TxDeps) (txHash : String) : Option Tx × Option GoError :=
  match d.GetTxByHash txHash with
  | .error err => (none, some err)
  | .ok txRes =>
    let txRaw := txRes.TxRaw
    let actions : List ActionRaw := txRaw.Actions.map fun v =>
      { Contract := v.Contract, ActionName := v.ActionName, Data := v.Data }
    let publisher : SignatureRaw :=
      { Algorithm := txRaw.Publisher.Algorithm
        Sig := d.Base58Encode txRaw.Publisher.Sig
        PubKey := d.Base58Encode txRaw.Publisher.PubKey }
    let signs : List SignatureRaw := txRaw.Signs.map fun v =>
      { Algorithm := v.Algorithm
        Sig := d.Base58Encode v.Sig
        PubKey := d.Base58Encode v.PubKey }
    match d.GetTxReceiptByTxHash txHash with
    | .error err => (none, some err)
    | .ok receiptRaw =>
      let receiptContentRaws : List ReceiptRaw := receiptRaw.TxReceiptRaw.Receipts.map fun v =>
        { Type_ := v.Type_, Content := v.Content }
      let receipt : TxReceiptRaw :=
        { GasUsage := receiptRaw.TxReceiptRaw.GasUsage
          SuccActionNum := receiptRaw.TxReceiptRaw.SuccActionNum
          StatusCode := receiptRaw.TxReceiptRaw.Status.Code
          StatusMessage := receiptRaw.TxReceiptRaw.Status.Message
          Receipts := receiptContentRaws }
      (some {
        BlockNumber := 0
        Time := txRaw.Time
        Hash := txHash
        Expiration := txRaw.Expiration
        GasPrice := txRaw.GasPrice
        GasLimit := txRaw.GasLimit
        Actions := actions
        Signers := byteSliceArrayToStringArray d txRaw.Signers
        Signs := signs
        Publisher := publisher
        Receipt := receipt }, none)

/-! ## Block summaries (`backend/model2/blocks.go`) -/

/-- Go `int64` wrap-around: the value in `[-2^63, 2^63)` congruent to `x`
modulo `2^64`. -/
def wrapInt64 (x : Int) : Int :=
  (x + 2 ^ 63) % 2 ^ 64 - 2 ^ 63

/-- The fields of `db.Block` that `blocks.go` reads. -/
structure Block where
  BlockNumber : Int
  ParentHash : String
  Hash : String
  Witness : String
  Time : Int
deriving DecidableEq

/-- The fields of a `db` gas-statistics entry that `blocks.go` reads. -/
structure BlockPay where
  TotalGasLimit : Int
  AvgGasPrice : Float

structure BlockOutput where
  Height : Int
  ParentHash : String
  BlockHash : String
  Witness : String
  Age : String
  UTCTime : String
  Timestamp : Int
  TxList : List String
  TotalGasLimit : Int
  AvgGasPrice : Float

/-- The functions that `blocks.go` calls and does not define.

* `GetBlocks start limit` is `db.GetBlocks`.
* `GetBlockPayListByHeight hs` is `db.GetBlockPayListByHeight`: the returned
  map (a lookup function; the `nil` map finds nothing) and the returned error.
* `GetBlockTxnHashes h` is `db.GetBlockTxnHashes`; on a nil error the list
  pointer is not nil.
* `modifyBlockIntToTimeStr`, `formatUTCTime` are the two time formatters of
  package `model2`. -/
structure BlockDeps where
  GetBlocks : Int → Int → Except GoError (List Block)
  GetBlockPayListByHeight : List Int → (Int → Option BlockPay) × Option GoError
  GetBlockTxnHashes : Int → Except GoError (List String)
  modifyBlockIntToTimeStr : Int → String
  formatUTCTime : Int → String

/-- The function `GenerateBlockOutput(bInfo *db.Block) *BlockOutput`; the
fields the composite literal omits are zero-valued. -/
def GenerateBlockOutput (d : BlockDeps) (bInfo : Block) : BlockOutput :=
  let timestamp := wrapInt64 (bInfo.Time * 3)
  { Height := bInfo.BlockNumber
    ParentHash := bInfo.ParentHash
    BlockHash := bInfo.Hash
    Witness := bInfo.Witness
    Age := d.modifyBlockIntToTimeStr timestamp
    UTCTime := d.formatUTCTime timestamp
    Timestamp := timestamp
    TxList := []
    TotalGasLimit := 0
    AvgGasPrice := 0 }

/-- Lines 39-51 of `blocks.go`: the summary built by one iteration of the
second loop of `GetBlock`. -/
def blockOutputAt (d : BlockDeps) (payMap : Int → Option BlockPay) (v : Block) : BlockOutput :=
  let output := GenerateBlockOutput d v
  let output :=
    match payMap v.BlockNumber with
    | some pay => { output with TotalGasLimit := pay.TotalGasLimit, AvgGasPrice := pay.AvgGasPrice }
    | none => output
  match d.GetBlockTxnHashes v.BlockNumber with
  | .ok txList => { output with TxList := txList }
  | .error _ => output

/-- The function `GetBlock(page, eachPageNum int64) ([]*BlockOutput, error)`. -/
def GetBlock (d : BlockDeps) (page eachPageNum : Int) : List BlockOutput × Option GoError :=
  let start := wrapInt64 (wrapInt64 (page - 1) * eachPageNum)
  match d.GetBlocks start eachPageNum with
  | .error err => ([], some err)
  | .ok blkInfoList =>
    let blkHeightList := blkInfoList.map fun v => v.BlockNumber
    let payMap := (d.GetBlockPayListByHeight blkHeightList).1
    let blockOutputList := blkInfoList.map fun v => blockOutputAt d payMap v
    (blockOutputList, none)

/-! ## The scheduler (`backend/task/task.go`)

`main` and the five goroutines it starts are an interleaving of atomic steps
on one shared state: the position of `main` in its body, the counter of the
wait group `ws`, and for each job whether it was launched and whether it has
signaled. An event that is not enabled (a blocked `ws.Wait()`, a finished
`main`) leaves the state as it is. -/

/-- The five jobs of package `cron` that `main` starts. -/
inductive Job where
  | UpdateBlocks
  | ProcessFailedSyncBlocks
  | UpdateTxns
  | UpdateBlockPay
  | UpdateAccounts
deriving DecidableEq

/-- The statements that occur in the body of `main`. -/
inductive Stmt where
  | wsAdd (n : Int)
  | go (j : Job)
  | wsWait
deriving DecidableEq

/-- The body of `func main()`, lines 11-17 of `task.go`. -/
def main : List Stmt :=
  [Stmt.wsAdd 5,
    Stmt.go Job.UpdateBlocks,
    Stmt.go Job.ProcessFailedSyncBlocks,
    Stmt.go Job.UpdateTxns,
    Stmt.go Job.UpdateBlockPay,
    Stmt.go Job.UpdateAccounts,
    Stmt.wsWait]

/-- The number of completions a body asks its wait group to wait for: the sum
of the arguments of its `ws.Add` statements. -/
def waitCount : List Stmt → Int
  | [] => 0
  | Stmt.wsAdd n :: p => n + waitCount p
  | _ :: p => waitCount p

/-- The jobs a body launches, in order: its `go` statements. -/
def launchedJobs : List Stmt → List Job
  | [] => []
  | Stmt.go j :: p => j :: launchedJobs p
  | _ :: p => launchedJobs p

/-- The shared state: `pc` counts the statements of `main` already executed
(`main` has returned when `pc = main.length`), `ws` is the counter of the
wait group, `crashed` records a panic of the process. -/
structure SchedState where
  pc : Nat
  ws : Int
  launched : Job → Bool
  signaled : Job → Bool
  crashed : Bool

def initState : SchedState :=
  { pc := 0, ws := 0, launched := fun _ => false, signaled := fun _ => false, crashed := false }

/-- One step of `main`: it executes its next statement. `ws.Add(n)` adds `n`
to the counter, `go` starts the job, `ws.Wait()` returns only when the counter
is zero and blocks otherwise. -/
def mainStep (s : SchedState) : SchedState :=
  match main[s.pc]? with
  | some (Stmt.wsAdd n) => { s with ws := s.ws + n, pc := s.pc + 1 }
  | some (Stmt.go j) =>
    { s with launched := fun k => if k = j then true else s.launched k, pc := s.pc + 1 }
  | some Stmt.wsWait => if s.ws = 0 then { s with pc := s.pc + 1 } else s
  | none => s

/-- Modelled from the spec: the jobs of package `cron`, which the source does
not contain. A job that was launched signals completion once, by `ws.Done()`,
which takes one from the counter and panics when the counter would become
negative. -/
def jobDone (s : SchedState) (j : Job) : SchedState :=
  if s.launched j = true ∧ s.signaled j = false then
    if s.ws - 1 < 0 then
      { s with crashed := true }
    else
      { s with ws := s.ws - 1, signaled := fun k => if k = j then true else s.signaled k }
  else
    s

/-- The atomic steps of the interleaving. -/
inductive Event where
  | main
  | done (j : Job)
deriving DecidableEq

/-- One step of the process; a crashed process makes no step. -/
def step (s : SchedState) (ev : Event) : SchedState :=
  if s.crashed = true then s
  else
    match ev with
    | Event.main => mainStep s
    | Event.done j => jobDone s j

/-- The state after a schedule of events. -/
def run (s : SchedState) : List Event → SchedState
  | [] => s
  | ev :: evs => run (step s ev) evs

/-- The number of jobs that have signaled. -/
def signaledCount (s : SchedState) : Int :=
  (s.signaled Job.UpdateBlocks).toNat + (s.signaled Job.ProcessFailedSyncBlocks).toNat +
    (s.signaled Job.UpdateTxns).toNat + (s.signaled Job.UpdateBlockPay).toNat +
    (s.signaled Job.UpdateAccounts).toNat

/-- The value of `pc` from which on the job is launched. -/
def launchPc : Job → Nat
  | Job.UpdateBlocks => 2
  | Job.ProcessFailedSyncBlocks => 3
  | Job.UpdateTxns => 4
  | Job.UpdateBlockPay => 5
  | Job.UpdateAccounts => 6

/-- The invariant of the interleaving: no crash; `pc` within the body; the
counter is what `ws.Add` put in, less one per signaled job; a job is launched
exactly from its `go` statement on; only launched jobs have signaled; and
`main` has returned only on a zero counter. -/
def SchedInv (s : SchedState) : Prop :=
  s.crashed = false ∧ s.pc ≤ 7 ∧
    s.ws = (if 1 ≤ s.pc then 5 else 0) - signaledCount s ∧
    (∀ j, s.launched j = decide (launchPc j ≤ s.pc)) ∧
    (∀ j, s.signaled j = true → s.launched j = true) ∧
    (s.pc = 7 → s.ws = 0)

/-- A schedule on which `main` returns: it runs up to `ws.Wait()`, the five
jobs signal, and `ws.Wait()` returns. -/
def sampleSchedule : List Event :=
  [Event.main, Event.main, Event.main, Event.main, Event.main, Event.main,
    Event.done Job.UpdateTxns, Event.main, Event.done Job.UpdateBlocks,
    Event.done Job.UpdateAccounts, Event.done Job.ProcessFailedSyncBlocks,
    Event.done Job.UpdateBlockPay, Event.main]

/-! ## Concrete collaborators and inputs, for evaluating the definitions -/

/-- Collaborators for concrete evaluation. The decoder knows one transfer
payload and leaves `tmp` nil with an error on any other input; the base58
functions and the identity derivation are stand-ins. -/
def sampleTxDeps : TxDeps where
  jsonUnmarshal := fun data =>
    if data = "[\"addr1\",\"addr2\",42.5]" then
      ([Iface.str "addr1", Iface.str "addr2", Iface.num 42.5], none)
    else
      ([], some "invalid character")
  Base58Encode := fun b => String.mk (b.map Char.ofNat)
  Base58Decode := fun s => s.toList.map Char.toNat
  GetIDByPubkey := fun b => String.mk (b.map Char.ofNat)
  GetTxByHash := fun _ => .error "not found"
  GetTxReceiptByTxHash := fun _ => .error "not found"

def emptyReceipt : TxReceiptRaw :=
  { GasUsage := 0, SuccActionNum := 0, Receipts := [], StatusCode := 0, StatusMessage := "" }

/-- A transaction with the given actions, all other fields fixed. -/
def sampleTx (actions : List ActionRaw) : Tx :=
  { BlockNumber := 7, Time := 1000, Hash := "h1", Expiration := 2000, GasPrice := 1
    GasLimit := 50, Actions := actions, Signers := [], Signs := []
    Publisher := { Algorithm := 2, Sig := "s", PubKey := "pk" }
    Receipt := emptyReceipt }

def voteAction : ActionRaw :=
  { Contract := "iost.vote", ActionName := "Vote", Data := "[\"a\",1]" }

def goodTransfer : ActionRaw :=
  { Contract := "iost.system", ActionName := "Transfer", Data := "[\"addr1\",\"addr2\",42.5]" }

def badTransfer : ActionRaw :=
  { Contract := "iost.system", ActionName := "Transfer", Data := "not json" }

/-- The record expected from `sampleTx` for the action `v` at index `i` with
the transfer fields `f`, `t`, `a`. -/
def sampleFlatTx (i : Int) (v : ActionRaw) (f t : String) (a : Float) : FlatTx :=
  { Id := "", BlockNumber := 7, Time := 1000, Hash := "h1", Expiration := 2000, GasPrice := 1
    GasLimit := 50, Action := v, Signers := [], Signs := [], Publisher := "pk"
    From := f, To := t, Amount := a, ActionIndex := i, ActionName := v.ActionName }

/-- A raw transaction as the chain RPC client returns it. -/
def sampleTxRes : RpcTxRes :=
  { TxRaw :=
    { Time := 1000, Expiration := 2000, GasPrice := 1, GasLimit := 50
      Actions := [{ Contract := "iost.vote", ActionName := "Vote", Data := "[\"a\",1]" },
        { Contract := "iost.system", ActionName := "Transfer",
          Data := "[\"addr1\",\"addr2\",42.5]" }]
      Signers := [[97, 98], [99]]
      Signs := [{ Algorithm := 1, Sig := [100], PubKey := [101, 102] }]
      Publisher := { Algorithm := 2, Sig := [115], PubKey := [112, 107] } } }

def sampleReceiptRes : RpcTxReceiptRes :=
  { TxReceiptRaw :=
    { GasUsage := 30, SuccActionNum := 2, Status := { Code := 0, Message := "" }
      Receipts := [{ Type_ := 1, Content := "ok" }] } }

/-- The collaborators `sampleTxDeps` with an RPC client that knows the hash
`h1`, and knows the hash `h2` without its receipt. -/
def sampleRpcDeps : TxDeps :=
  { sampleTxDeps with
    GetTxByHash := fun h =>
      if h = "h1" ∨ h = "h2" then .ok sampleTxRes else .error "tx not found"
    GetTxReceiptByTxHash := fun h =>
      if h = "h1" then .ok sampleReceiptRes else .error "receipt not found" }

/-- The transaction that `RpcGetTxByHash` builds from `sampleTxRes` and
`sampleReceiptRes`. -/
def sampleFetchedTx : Tx :=
  { BlockNumber := 0, Time := 1000, Hash := "h1", Expiration := 2000, GasPrice := 1
    GasLimit := 50
    Actions := [voteAction, goodTransfer]
    Signers := ["ab", "c"]
    Signs := [{ Algorithm := 1, Sig := "d", PubKey := "ef" }]
    Publisher := { Algorithm := 2, Sig := "s", PubKey := "pk" }
    Receipt :=
      { GasUsage := 30, SuccActionNum := 2, Receipts := [{ Type_ := 1, Content := "ok" }]
        StatusCode := 0, StatusMessage := "" } }

/-- A page of two persisted blocks. -/
def samplePage : List Block :=
  [{ BlockNumber := 100, ParentHash := "p99", Hash := "b100", Witness := "w1", Time := 1000 },
    { BlockNumber := 101, ParentHash := "b100", Hash := "b101", Witness := "w2", Time := 1001 }]

/-- Stand-ins for the persistence layer and the formatters, serving
`samplePage` at offset 0: height 100 has gas statistics and a hash list,
height 101 has neither, and the gas-statistics query reports an error. -/
def sampleBlockDeps : BlockDeps where
  GetBlocks := fun start _ => if start = 0 then .ok samplePage else .ok []
  GetBlockPayListByHeight := fun _ =>
    (fun h => if h = 100 then some { TotalGasLimit := 300, AvgGasPrice := 1.5 } else none,
      some "gas statistics incomplete")
  GetBlockTxnHashes := fun h => if h = 100 then .ok ["t1", "t2"] else .error "not found"
  modifyBlockIntToTimeStr := fun t => if 0 ≤ t then "after epoch" else "before epoch"
  formatUTCTime := fun t => if t % 2 = 0 then "even second" else "odd second"

/-- A block whose raw time is `2^62`, inside the `int64` range. -/
def overflowBlock : Block :=
  { BlockNumber := 1, ParentHash := "", Hash := "", Witness := "", Time := 4611686018427387904 }

/-! ## Lemmas on the loop of `ToFlatTx` -/

/-- The slice `tmp` starts with a string, a string and a number: exactly the
case in which lines 138-140 do not panic. -/
def decodesTransfer : List Iface → Bool
  | Iface.str _ :: Iface.str _ :: Iface.num _ :: _ => true
  | _ => false

theorem decodesTransfer_iff (tmp : List Iface) :
    decodesTransfer tmp = true ↔
      ∃ f t a rest, tmp = Iface.str f :: Iface.str t :: Iface.num a :: rest := by
  rcases tmp with _ | ⟨x0, _ | ⟨x1, _ | ⟨x2, rest⟩⟩⟩
  · simp [decodesTransfer]
  · cases x0 <;> simp [decodesTransfer]
  · cases x0 <;> cases x1 <;> simp [decodesTransfer]
  · cases x0 <;> cases x1 <;> cases x2 <;> simp [decodesTransfer]

theorem transferFields_other (d : TxDeps) (v : ActionRaw) (h : v.ActionName ≠ "Transfer") :
    transferFields d v = .ok ("", "", 0) := by
  simp [transferFields, h]

theorem transferFields_decoded (d : TxDeps) (v : ActionRaw) (f t : String) (a : Float)
    (rest : List Iface) (h : v.ActionName = "Transfer")
    (hd : (d.jsonUnmarshal v.Data).1 = Iface.str f :: Iface.str t :: Iface.num a :: rest) :
    transferFields d v = .ok (f, t, a) := by
  simp [transferFields, h, hd, sliceIndex, assertString, assertFloat64]

theorem transferFields_undecoded (d : TxDeps) (v : ActionRaw) (h : v.ActionName = "Transfer")
    (hd : decodesTransfer (d.jsonUnmarshal v.Data).1 = false) :
    ∃ p, transferFields d v = .error p := by
  generalize htmp : (d.jsonUnmarshal v.Data).1 = tmp at hd
  simp only [transferFields, h, if_true, htmp]
  rcases tmp with _ | ⟨x0, _ | ⟨x1, _ | ⟨x2, rest⟩⟩⟩
  · simp [sliceIndex]
  · cases x0 <;> simp [sliceIndex, assertString]
  · cases x0 <;> cases x1 <;> simp [sliceIndex, assertString]
  · cases x0 <;> cases x1 <;> cases x2 <;>
      simp [sliceIndex, assertString, assertFloat64, decodesTransfer] at hd ⊢

theorem flatTxAt_ok (d : TxDeps) (tx : Tx) (i : Nat) (v : ActionRaw) (r : FlatTx)
    (h : flatTxAt d tx i v = .ok r) :
    transferFields d v = .ok (r.From, r.To, r.Amount) ∧ r.Hash = tx.Hash ∧
      r.ActionIndex = i ∧ r.Action = v ∧
      r.Publisher = d.GetIDByPubkey (d.Base58Decode tx.Publisher.PubKey) := by
  unfold flatTxAt at h
  cases hx : transferFields d v with
  | error p => simp [hx] at h
  | ok x =>
    obtain ⟨f, t, a⟩ := x
    simp only [hx, Except.ok.injEq] at h
    subst h
    exact ⟨rfl, rfl, rfl, rfl, rfl⟩

theorem flatTxAt_error (d : TxDeps) (tx : Tx) (i : Nat) (v : ActionRaw) (p : Panic)
    (h : transferFields d v = .error p) : flatTxAt d tx i v = .error p := by
  simp [flatTxAt, h]

theorem flatTxLoop_ok (d : TxDeps) (tx : Tx) :
    ∀ (vs : List ActionRaw) (i : Nat) (rs : List FlatTx), flatTxLoop d tx i vs = .ok rs →
      rs.length = vs.length ∧
        ∀ k v, vs[k]? = some v → ∃ r, rs[k]? = some r ∧ flatTxAt d tx (i + k) v = .ok r := by
  intro vs
  induction vs with
  | nil =>
    intro i rs h
    simp only [flatTxLoop, Except.ok.injEq] at h
    subst h
    simp
  | cons v vs ih =>
    intro i rs h
    unfold flatTxLoop at h
    cases hr : flatTxAt d tx i v with
    | error p => simp [hr] at h
    | ok r =>
      cases hrs : flatTxLoop d tx (i + 1) vs with
      | error p => simp [hr, hrs] at h
      | ok rs1 =>
        simp only [hr, hrs, Except.ok.injEq] at h
        subst h
        obtain ⟨hlen, hget⟩ := ih (i + 1) rs1 hrs
        refine ⟨by simp [hlen], ?_⟩
        intro k w hk
        cases k with
        | zero =>
          simp only [List.getElem?_cons_zero, Option.some.injEq] at hk
          subst hk
          exact ⟨r, by simp, by simpa using hr⟩
        | succ k =>
          simp only [List.getElem?_cons_succ] at hk
          obtain ⟨r1, h1, h2⟩ := hget k w hk
          refine ⟨r1, by simpa using h1, ?_⟩
          have : i + (k + 1) = i + 1 + k := by omega
          rw [this]
          exact h2

theorem flatTxLoop_error (d : TxDeps) (tx : Tx) :
    ∀ (vs : List ActionRaw) (i : Nat) (v : ActionRaw), v ∈ vs →
      (∃ p, transferFields d v = .error p) → ∃ p, flatTxLoop d tx i vs = .error p := by
  intro vs
  induction vs with
  | nil => intro i v hv; simp at hv
  | cons w ws ih =>
    intro i v hv hp
    unfold flatTxLoop
    cases hr : flatTxAt d tx i w with
    | error p => exact ⟨p, rfl⟩
    | ok r =>
      have hmem : v ∈ ws := by
        rcases List.mem_cons.mp hv with h | h
        · subst h
          obtain ⟨p, hp⟩ := hp
          rw [flatTxAt_error d tx i v p hp] at hr
          cases hr
        · exact h
      obtain ⟨p, hp1⟩ := ih (i + 1) v hmem hp
      exact ⟨p, by simp [hp1]⟩

theorem flatTxLoop_returns (d : TxDeps) (tx : Tx) :
    ∀ (vs : List ActionRaw) (i : Nat), (∀ v ∈ vs, ∃ x, transferFields d v = .ok x) →
      ∃ rs, flatTxLoop d tx i vs = .ok rs := by
  intro vs
  induction vs with
  | nil => intro i _; exact ⟨[], rfl⟩
  | cons w ws ih =>
    intro i h
    obtain ⟨x, hx⟩ := h w (List.mem_cons_self _ _)
    obtain ⟨rs, hrs⟩ := ih (i + 1) (fun v hv => h v (List.mem_cons_of_mem _ hv))
    unfold flatTxLoop
    simp only [flatTxAt, hx, hrs]
    exact ⟨_, rfl⟩

/-! ## `ToFlatTx`: what it returns, and when -/

/-- Whenever `ToFlatTx` returns, it returns one record per action, and the
record at index `k` is the one built by the loop iteration for action `k`. -/
theorem ToFlatTx_records (d : TxDeps) (tx : Tx) (rs : List FlatTx)
    (h : ToFlatTx d tx = .ok rs) :
    rs.length = tx.Actions.length ∧
      ∀ k v, tx.Actions[k]? = some v → ∃ r, rs[k]? = some r ∧ flatTxAt d tx k v = .ok r := by
  have := flatTxLoop_ok d tx tx.Actions 0 rs h
  simpa using this

/-- The method `ToFlatTx` returns exactly when every `Transfer` action of the
transaction decodes. -/
theorem ToFlatTx_returns_iff (d : TxDeps) (tx : Tx) :
    (∃ rs, ToFlatTx d tx = .ok rs) ↔
      ∀ v ∈ tx.Actions, v.ActionName = "Transfer" →
        decodesTransfer (d.jsonUnmarshal v.Data).1 = true := by
  constructor
  · rintro ⟨rs, hrs⟩ v hv hn
    by_contra hd
    obtain ⟨p, hp⟩ := flatTxLoop_error d tx tx.Actions 0 v hv
      (transferFields_undecoded d v hn (by simpa using hd))
    rw [ToFlatTx, hp] at hrs
    cases hrs
  · intro h
    apply flatTxLoop_returns d tx tx.Actions 0
    intro v hv
    by_cases hn : v.ActionName = "Transfer"
    · obtain ⟨f, t, a, rest, hd⟩ := (decodesTransfer_iff _).mp (h v hv hn)
      exact ⟨_, transferFields_decoded d v f t a rest hn hd⟩
    · exact ⟨_, transferFields_other d v hn⟩

/-! ## Claims C1 - C5 -/

/-- C1, divergence. For the transaction whose actions are a `Vote` followed by
a `Transfer` with data `not json`, on which `json.Unmarshal` leaves `tmp`
nil, `ToFlatTx` does not return two records: it panics at `tmp[0]` with an
index out of range. -/
theorem ToFlatTx_panics_instead_of_two_records (d : TxDeps)
    (h : (d.jsonUnmarshal "not json").1 = []) :
    ToFlatTx d (sampleTx [voteAction, badTransfer]) = .error .indexOutOfRange := by
  have hv : transferFields d voteAction = .ok ("", "", 0) :=
    transferFields_other d voteAction (by decide)
  have hb : transferFields d badTransfer = .error .indexOutOfRange := by
    have h1 : (d.jsonUnmarshal badTransfer.Data).1 = [] := h
    simp [transferFields, badTransfer, sliceIndex, h]
  simp [ToFlatTx, sampleTx, flatTxLoop, flatTxAt, hv, hb]

theorem ToFlatTx_panics_instead_of_two_records_witness :
    (sampleTxDeps.jsonUnmarshal "not json").1 = [] ∧
      ToFlatTx sampleTxDeps (sampleTx [voteAction, badTransfer]) = .error .indexOutOfRange :=
  ⟨rfl, ToFlatTx_panics_instead_of_two_records sampleTxDeps rfl⟩

/-- C2, divergence. If a transaction contains a `Transfer` action for which
the slice left by `json.Unmarshal` does not start with a string, a string and
a number (nil after invalid JSON, too short, or a wrong element type), then
`ToFlatTx` panics: it returns no record at all. -/
theorem ToFlatTx_aborts_on_malformed_transfer (d : TxDeps) (tx : Tx) (v : ActionRaw)
    (hv : v ∈ tx.Actions) (hn : v.ActionName = "Transfer")
    (hd : decodesTransfer (d.jsonUnmarshal v.Data).1 = false) :
    ∃ p, ToFlatTx d tx = .error p :=
  flatTxLoop_error d tx tx.Actions 0 v hv (transferFields_undecoded d v hn hd)

theorem ToFlatTx_aborts_on_malformed_transfer_witness :
    ∃ p, ToFlatTx sampleTxDeps (sampleTx [badTransfer]) = .error p :=
  ToFlatTx_aborts_on_malformed_transfer sampleTxDeps (sampleTx [badTransfer]) badTransfer
    (by simp [sampleTx]) (by decide) rfl

/-- Whenever `ToFlatTx` returns: if the action at index `i` is a `Transfer`
whose data decodes to the array `[f, t, a]` of two strings and a number, then
the record at index `i` has `From = f`, `To = t`, `Amount = a`. -/
theorem ToFlatTx_transfer_fields (d : TxDeps) (tx : Tx) (i : Nat) (v : ActionRaw)
    (f t : String) (a : Float) (rs : List FlatTx)
    (hv : tx.Actions[i]? = some v) (hn : v.ActionName = "Transfer")
    (hd : (d.jsonUnmarshal v.Data).1 = [Iface.str f, Iface.str t, Iface.num a])
    (hrs : ToFlatTx d tx = .ok rs) :
    ∃ r, rs[i]? = some r ∧ r.From = f ∧ r.To = t ∧ r.Amount = a := by
  obtain ⟨r, hr, hat⟩ := (ToFlatTx_records d tx rs hrs).2 i v hv
  refine ⟨r, hr, ?_⟩
  have h1 := (flatTxAt_ok d tx i v r hat).1
  rw [transferFields_decoded d v f t a [] hn hd] at h1
  simp only [Except.ok.injEq, Prod.mk.injEq] at h1
  exact ⟨h1.1.symm, h1.2.1.symm, h1.2.2.symm⟩

theorem ToFlatTx_transfer_fields_witness :
    ∃ r, [sampleFlatTx 0 voteAction "" "" 0,
        sampleFlatTx 1 goodTransfer "addr1" "addr2" 42.5][1]? = some r ∧
      r.From = "addr1" ∧ r.To = "addr2" ∧ r.Amount = 42.5 :=
  ToFlatTx_transfer_fields sampleTxDeps (sampleTx [voteAction, goodTransfer]) 1 goodTransfer
    "addr1" "addr2" 42.5 _ rfl rfl rfl rfl

/-- Whenever `ToFlatTx` returns: if the action at index `i` has a name other
than `Transfer`, then the record at index `i` has `From = ""`, `To = ""` and
`Amount = 0`, whatever the data of the action. -/
theorem ToFlatTx_other_action_fields (d : TxDeps) (tx : Tx) (i : Nat) (v : ActionRaw)
    (rs : List FlatTx)
    (hv : tx.Actions[i]? = some v) (hn : v.ActionName ≠ "Transfer")
    (hrs : ToFlatTx d tx = .ok rs) :
    ∃ r, rs[i]? = some r ∧ r.From = "" ∧ r.To = "" ∧ r.Amount = 0 := by
  obtain ⟨r, hr, hat⟩ := (ToFlatTx_records d tx rs hrs).2 i v hv
  refine ⟨r, hr, ?_⟩
  have h1 := (flatTxAt_ok d tx i v r hat).1
  rw [transferFields_other d v hn] at h1
  simp only [Except.ok.injEq, Prod.mk.injEq] at h1
  exact ⟨h1.1.symm, h1.2.1.symm, h1.2.2.symm⟩

theorem ToFlatTx_other_action_fields_witness :
    ∃ r, [sampleFlatTx 0 goodTransfer "addr1" "addr2" 42.5,
        sampleFlatTx 1 voteAction "" "" 0][1]? = some r ∧
      r.From = "" ∧ r.To = "" ∧ r.Amount = 0 :=
  ToFlatTx_other_action_fields sampleTxDeps (sampleTx [goodTransfer, voteAction]) 1 voteAction
    _ rfl (by decide) rfl

/-- C3, divergence. In the transaction whose actions are a `Transfer` with
data `["addr1","addr2",42.5]` followed by a `Transfer` with data `not json`,
the action at index 0 is a `Transfer` whose data decodes to the array
`["addr1", "addr2", 42.5]`, yet `ToFlatTx` has no record at index 0 with these
fields: it panics at `tmp[0]` of the second action and returns nothing. -/
theorem ToFlatTx_panics_after_decoded_transfer (d : TxDeps)
    (hgood : (d.jsonUnmarshal "[\"addr1\",\"addr2\",42.5]").1 =
      [Iface.str "addr1", Iface.str "addr2", Iface.num 42.5])
    (hbad : (d.jsonUnmarshal "not json").1 = []) :
    (sampleTx [goodTransfer, badTransfer]).Actions[0]? = some goodTransfer ∧
      goodTransfer.ActionName = "Transfer" ∧
      (d.jsonUnmarshal goodTransfer.Data).1 =
        [Iface.str "addr1", Iface.str "addr2", Iface.num 42.5] ∧
      ToFlatTx d (sampleTx [goodTransfer, badTransfer]) = .error .indexOutOfRange := by
  have hg : transferFields d goodTransfer = .ok ("addr1", "addr2", 42.5) :=
    transferFields_decoded d goodTransfer "addr1" "addr2" 42.5 [] rfl hgood
  have hb : transferFields d badTransfer = .error .indexOutOfRange := by
    simp [transferFields, badTransfer, sliceIndex, hbad]
  refine ⟨rfl, rfl, hgood, ?_⟩
  simp [ToFlatTx, sampleTx, flatTxLoop, flatTxAt, hg, hb]

theorem ToFlatTx_panics_after_decoded_transfer_witness :
    (sampleTx [goodTransfer, badTransfer]).Actions[0]? = some goodTransfer ∧
      goodTransfer.ActionName = "Transfer" ∧
      (sampleTxDeps.jsonUnmarshal goodTransfer.Data).1 =
        [Iface.str "addr1", Iface.str "addr2", Iface.num 42.5] ∧
      ToFlatTx sampleTxDeps (sampleTx [goodTransfer, badTransfer]) = .error .indexOutOfRange :=
  ToFlatTx_panics_after_decoded_transfer sampleTxDeps rfl rfl

/-- C4, divergence. In the transaction whose actions are a `Transfer` with
data `not json` followed by a `Vote`, the action at index 1 has a name other
than `Transfer`, yet `ToFlatTx` has no record at index 1 with empty transfer
fields: it panics at `tmp[0]` of the first action and returns nothing. -/
theorem ToFlatTx_panics_before_other_action (d : TxDeps)
    (hbad : (d.jsonUnmarshal "not json").1 = []) :
    (sampleTx [badTransfer, voteAction]).Actions[1]? = some voteAction ∧
      voteAction.ActionName ≠ "Transfer" ∧
      ToFlatTx d (sampleTx [badTransfer, voteAction]) = .error .indexOutOfRange := by
  have hb : transferFields d badTransfer = .error .indexOutOfRange := by
    simp [transferFields, badTransfer, sliceIndex, hbad]
  refine ⟨rfl, by decide, ?_⟩
  simp [ToFlatTx, sampleTx, flatTxLoop, flatTxAt, hb]

theorem ToFlatTx_panics_before_other_action_witness :
    (sampleTx [badTransfer, voteAction]).Actions[1]? = some voteAction ∧
      voteAction.ActionName ≠ "Transfer" ∧
      ToFlatTx sampleTxDeps (sampleTx [badTransfer, voteAction]) = .error .indexOutOfRange :=
  ToFlatTx_panics_before_other_action sampleTxDeps rfl

/-- C5. Every record returned by `ToFlatTx` has as `Publisher` the identity
derived by `GetIDByPubkey` from the base58 decoding of the publisher's public
key, so any two records of one transaction have the same `Publisher`. -/
theorem ToFlatTx_publisher (d : TxDeps) (tx : Tx) (rs : List FlatTx)
    (hrs : ToFlatTx d tx = .ok rs) :
    (∀ r ∈ rs, r.Publisher = d.GetIDByPubkey (d.Base58Decode tx.Publisher.PubKey)) ∧
      ∀ r1 ∈ rs, ∀ r2 ∈ rs, r1.Publisher = r2.Publisher := by
  have key : ∀ r ∈ rs, r.Publisher = d.GetIDByPubkey (d.Base58Decode tx.Publisher.PubKey) := by
    intro r hr
    obtain ⟨k, hk, hget⟩ := List.getElem_of_mem hr
    obtain ⟨hlen, hrec⟩ := ToFlatTx_records d tx rs hrs
    have hk2 : k < tx.Actions.length := hlen ▸ hk
    obtain ⟨r1, h1, hat⟩ := hrec k tx.Actions[k] (List.getElem?_eq_getElem hk2)
    rw [List.getElem?_eq_getElem hk, Option.some.injEq] at h1
    rw [← hget, h1]
    exact (flatTxAt_ok d tx k _ r1 hat).2.2.2.2
  exact ⟨key, fun r1 h1 r2 h2 => (key r1 h1).trans (key r2 h2).symm⟩

theorem ToFlatTx_publisher_witness :
    (∀ r ∈ [sampleFlatTx 0 goodTransfer "addr1" "addr2" 42.5, sampleFlatTx 1 voteAction "" "" 0],
        r.Publisher = sampleTxDeps.GetIDByPubkey (sampleTxDeps.Base58Decode "pk")) ∧
      ∀ r1 ∈ [sampleFlatTx 0 goodTransfer "addr1" "addr2" 42.5, sampleFlatTx 1 voteAction "" "" 0],
        ∀ r2 ∈ [sampleFlatTx 0 goodTransfer "addr1" "addr2" 42.5,
          sampleFlatTx 1 voteAction "" "" 0], r1.Publisher = r2.Publisher :=
  ToFlatTx_publisher sampleTxDeps (sampleTx [goodTransfer, voteAction]) _ rfl

/-! ## Claim C6: the timestamp of a block summary -/

theorem wrapInt64_of_inRange (x : Int) (h1 : -2 ^ 63 ≤ x) (h2 : x < 2 ^ 63) :
    wrapInt64 x = x := by
  unfold wrapInt64
  omega

/-- For every block the timestamp is the `int64` wrap-around of three times
the raw time, and both formatted fields are computed from that timestamp. -/
theorem GenerateBlockOutput_wrapped (d : BlockDeps) (b : Block) :
    (GenerateBlockOutput d b).Timestamp = wrapInt64 (b.Time * 3) ∧
      (GenerateBlockOutput d b).Age =
        d.modifyBlockIntToTimeStr (GenerateBlockOutput d b).Timestamp ∧
      (GenerateBlockOutput d b).UTCTime = d.formatUTCTime (GenerateBlockOutput d b).Timestamp :=
  ⟨rfl, rfl, rfl⟩

/-- C6, counterexample. For the raw time `T = 2^62`, a valid `int64`, the
product overflows: the summary has `Timestamp = -2^62`, not `T * 3`. -/
theorem GenerateBlockOutput_timestamp_overflows :
    (GenerateBlockOutput sampleBlockDeps overflowBlock).Timestamp = -4611686018427387904 ∧
      (GenerateBlockOutput sampleBlockDeps overflowBlock).Timestamp ≠ overflowBlock.Time * 3 := by
  decide

/-- C6, amended. For every block whose raw time `T` satisfies
`-2^63 ≤ T * 3 < 2^63`, the summary has `Timestamp = T * 3` exactly, and `Age`
and `UTCTime` are the two formatters applied to that scaled value. -/
theorem GenerateBlockOutput_timestamp (d : BlockDeps) (b : Block)
    (h1 : -2 ^ 63 ≤ b.Time * 3) (h2 : b.Time * 3 < 2 ^ 63) :
    (GenerateBlockOutput d b).Timestamp = b.Time * 3 ∧
      (GenerateBlockOutput d b).Age = d.modifyBlockIntToTimeStr (b.Time * 3) ∧
      (GenerateBlockOutput d b).UTCTime = d.formatUTCTime (b.Time * 3) := by
  have hw : wrapInt64 (b.Time * 3) = b.Time * 3 := wrapInt64_of_inRange _ h1 h2
  simp only [GenerateBlockOutput, hw, and_self]

theorem GenerateBlockOutput_timestamp_witness :
    (GenerateBlockOutput sampleBlockDeps
        { BlockNumber := 100, ParentHash := "p99", Hash := "b100", Witness := "w1",
          Time := 1000 }).Timestamp = 1000 * 3 ∧
      (GenerateBlockOutput sampleBlockDeps
        { BlockNumber := 100, ParentHash := "p99", Hash := "b100", Witness := "w1",
          Time := 1000 }).Age = sampleBlockDeps.modifyBlockIntToTimeStr (1000 * 3) ∧
      (GenerateBlockOutput sampleBlockDeps
        { BlockNumber := 100, ParentHash := "p99", Hash := "b100", Witness := "w1",
          Time := 1000 }).UTCTime = sampleBlockDeps.formatUTCTime (1000 * 3) :=
  GenerateBlockOutput_timestamp sampleBlockDeps
    { BlockNumber := 100, ParentHash := "p99", Hash := "b100", Witness := "w1", Time := 1000 }
    (by decide) (by decide)

/-! ## Claims C7 and C9: a page of block summaries -/

theorem blockOutputAt_height (d : BlockDeps) (payMap : Int → Option BlockPay) (v : Block) :
    (blockOutputAt d payMap v).Height = v.BlockNumber := by
  unfold blockOutputAt
  cases payMap v.BlockNumber <;> cases d.GetBlockTxnHashes v.BlockNumber <;> rfl

theorem blockOutputAt_gas (d : BlockDeps) (payMap : Int → Option BlockPay) (v : Block) :
    match payMap v.BlockNumber with
    | some pay =>
      (blockOutputAt d payMap v).TotalGasLimit = pay.TotalGasLimit ∧
        (blockOutputAt d payMap v).AvgGasPrice = pay.AvgGasPrice
    | none =>
      (blockOutputAt d payMap v).TotalGasLimit = 0 ∧ (blockOutputAt d payMap v).AvgGasPrice = 0 := by
  unfold blockOutputAt
  cases payMap v.BlockNumber <;> cases d.GetBlockTxnHashes v.BlockNumber <;> exact ⟨rfl, rfl⟩

theorem blockOutputAt_txList (d : BlockDeps) (payMap : Int → Option BlockPay) (v : Block) :
    match d.GetBlockTxnHashes v.BlockNumber with
    | .ok txList => (blockOutputAt d payMap v).TxList = txList
    | .error _ => (blockOutputAt d payMap v).TxList = [] := by
  unfold blockOutputAt
  cases payMap v.BlockNumber <;> cases d.GetBlockTxnHashes v.BlockNumber <;> rfl

/-- The summary of a block reads the hash lookup at that block's height only. -/
theorem blockOutputAt_lookup_congr (d : BlockDeps) (g : Int → Except GoError (List String))
    (payMap : Int → Option BlockPay) (v : Block)
    (h : g v.BlockNumber = d.GetBlockTxnHashes v.BlockNumber) :
    blockOutputAt { d with GetBlockTxnHashes := g } payMap v = blockOutputAt d payMap v := by
  simp only [blockOutputAt, GenerateBlockOutput, h]

/-- When `db.GetBlocks` succeeds, `GetBlock` returns the list of the
summaries of the blocks of the page, in order, and a nil error. -/
theorem GetBlock_ok (d : BlockDeps) (page eachPageNum : Int) (blks : List Block)
    (h : d.GetBlocks (wrapInt64 (wrapInt64 (page - 1) * eachPageNum)) eachPageNum = .ok blks) :
    GetBlock d page eachPageNum =
      (blks.map (blockOutputAt d
        (d.GetBlockPayListByHeight (blks.map fun v => v.BlockNumber)).1), none) := by
  simp only [GetBlock, h]

/-- C7. When the page of blocks is fetched, `GetBlock` returns a nil error
whatever the gas-statistics query returned (map and error), and the summary
of each block has `TotalGasLimit` and `AvgGasPrice` equal to the map's entry
for the block's height when there is one, and both `0` when there is none. -/
theorem GetBlock_gas_stats (d : BlockDeps) (page eachPageNum : Int) (blks : List Block)
    (h : d.GetBlocks (wrapInt64 (wrapInt64 (page - 1) * eachPageNum)) eachPageNum = .ok blks) :
    (GetBlock d page eachPageNum).2 = none ∧
      ∀ (i : Nat) (b : Block), blks[i]? = some b →
        ∃ o : BlockOutput, (GetBlock d page eachPageNum).1[i]? = some o ∧
        match (d.GetBlockPayListByHeight (blks.map fun v => v.BlockNumber)).1 b.BlockNumber with
        | some pay => o.TotalGasLimit = pay.TotalGasLimit ∧ o.AvgGasPrice = pay.AvgGasPrice
        | none => o.TotalGasLimit = 0 ∧ o.AvgGasPrice = 0 := by
  rw [GetBlock_ok d page eachPageNum blks h]
  refine ⟨rfl, ?_⟩
  intro i b hb
  refine ⟨blockOutputAt d (d.GetBlockPayListByHeight (blks.map fun v => v.BlockNumber)).1 b,
    by simp only [List.getElem?_map, hb, Option.map_some'], ?_⟩
  exact blockOutputAt_gas d _ b

theorem GetBlock_gas_stats_witness :
    (GetBlock sampleBlockDeps 1 2).2 = none ∧
      ∀ (i : Nat) (b : Block), samplePage[i]? = some b →
        ∃ o : BlockOutput, (GetBlock sampleBlockDeps 1 2).1[i]? = some o ∧
        match (sampleBlockDeps.GetBlockPayListByHeight
          (samplePage.map fun v => v.BlockNumber)).1 b.BlockNumber with
        | some pay => o.TotalGasLimit = pay.TotalGasLimit ∧ o.AvgGasPrice = pay.AvgGasPrice
        | none => o.TotalGasLimit = 0 ∧ o.AvgGasPrice = 0 :=
  GetBlock_gas_stats sampleBlockDeps 1 2 samplePage rfl

/-- C9. When the page of `n` blocks is fetched, `GetBlock` returns a nil
error and `n` summaries; the summary at index `i` has the height of block
`i`, has `TxList` equal to the hash list when the lookup for that height
succeeds and empty when it fails, and stays the same under any change of the
hash lookup at other heights. -/
theorem GetBlock_page (d : BlockDeps) (page eachPageNum : Int) (blks : List Block)
    (h : d.GetBlocks (wrapInt64 (wrapInt64 (page - 1) * eachPageNum)) eachPageNum = .ok blks) :
    (GetBlock d page eachPageNum).2 = none ∧
      (GetBlock d page eachPageNum).1.length = blks.length ∧
      ∀ (i : Nat) (b : Block), blks[i]? = some b →
        ∃ o : BlockOutput, (GetBlock d page eachPageNum).1[i]? = some o ∧
        o.Height = b.BlockNumber ∧
        (∀ txList, d.GetBlockTxnHashes b.BlockNumber = .ok txList → o.TxList = txList) ∧
        (∀ err, d.GetBlockTxnHashes b.BlockNumber = .error err → o.TxList = []) ∧
        ∀ g : Int → Except GoError (List String),
          g b.BlockNumber = d.GetBlockTxnHashes b.BlockNumber →
            (GetBlock { d with GetBlockTxnHashes := g } page eachPageNum).1[i]? = some o := by
  rw [GetBlock_ok d page eachPageNum blks h]
  refine ⟨rfl, by simp, ?_⟩
  intro i b hb
  refine ⟨blockOutputAt d (d.GetBlockPayListByHeight (blks.map fun v => v.BlockNumber)).1 b,
    by simp only [List.getElem?_map, hb, Option.map_some'],
    blockOutputAt_height d _ b, ?_, ?_, ?_⟩
  · intro txList hl
    have := blockOutputAt_txList d
      (d.GetBlockPayListByHeight (blks.map fun v => v.BlockNumber)).1 b
    rw [hl] at this
    exact this
  · intro err he
    have := blockOutputAt_txList d
      (d.GetBlockPayListByHeight (blks.map fun v => v.BlockNumber)).1 b
    rw [he] at this
    exact this
  · intro g hg
    rw [GetBlock_ok { d with GetBlockTxnHashes := g } page eachPageNum blks h]
    simp only [List.getElem?_map, hb, Option.map_some', Option.some.injEq]
    exact blockOutputAt_lookup_congr d g _ b hg

theorem GetBlock_page_witness :
    (GetBlock sampleBlockDeps 1 2).2 = none ∧
      (GetBlock sampleBlockDeps 1 2).1.length = samplePage.length ∧
      ∀ (i : Nat) (b : Block), samplePage[i]? = some b →
        ∃ o : BlockOutput, (GetBlock sampleBlockDeps 1 2).1[i]? = some o ∧
        o.Height = b.BlockNumber ∧
        (∀ txList, sampleBlockDeps.GetBlockTxnHashes b.BlockNumber = .ok txList →
          o.TxList = txList) ∧
        (∀ err, sampleBlockDeps.GetBlockTxnHashes b.BlockNumber = .error err → o.TxList = []) ∧
        ∀ g : Int → Except GoError (List String),
          g b.BlockNumber = sampleBlockDeps.GetBlockTxnHashes b.BlockNumber →
            (GetBlock { sampleBlockDeps with GetBlockTxnHashes := g } 1 2).1[i]? = some o :=
  GetBlock_page sampleBlockDeps 1 2 samplePage rfl

/-! ## Claims C8 and C10: `RpcGetTxByHash` -/

/-- C8. `RpcGetTxByHash` returns `(nil, err)` when `GetTxByHash` fails with
`err`, and when `GetTxByHash` succeeds and `GetTxReceiptByTxHash` fails with
`err`; it returns a non-nil `Tx` and a nil error when both succeed; so its
error is non-nil exactly when one of the two calls fails. -/
theorem RpcGetTxByHash_fails_iff (d : TxDeps) (txHash : String) :
    (∀ err, d.GetTxByHash txHash = .error err →
        RpcGetTxByHash d txHash = (none, some err)) ∧
      (∀ txRes err, d.GetTxByHash txHash = .ok txRes →
        d.GetTxReceiptByTxHash txHash = .error err →
          RpcGetTxByHash d txHash = (none, some err)) ∧
      (∀ txRes receiptRaw, d.GetTxByHash txHash = .ok txRes →
        d.GetTxReceiptByTxHash txHash = .ok receiptRaw →
          ∃ tx, RpcGetTxByHash d txHash = (some tx, none)) ∧
      ((RpcGetTxByHash d txHash).2 ≠ none ↔
        ((∃ err, d.GetTxByHash txHash = .error err) ∨
          ((∃ txRes, d.GetTxByHash txHash = .ok txRes) ∧
            ∃ err, d.GetTxReceiptByTxHash txHash = .error err))) := by
  unfold RpcGetTxByHash
  cases h1 : d.GetTxByHash txHash with
  | error e => simp
  | ok txRes =>
    cases h2 : d.GetTxReceiptByTxHash txHash with
    | error e => simp
    | ok rc => simp

theorem RpcGetTxByHash_fails_iff_witness :
    RpcGetTxByHash sampleRpcDeps "h0" = (none, some "tx not found") ∧
      RpcGetTxByHash sampleRpcDeps "h2" = (none, some "receipt not found") ∧
      ∃ tx, RpcGetTxByHash sampleRpcDeps "h1" = (some tx, none) :=
  ⟨(RpcGetTxByHash_fails_iff sampleRpcDeps "h0").1 _ rfl,
    (RpcGetTxByHash_fails_iff sampleRpcDeps "h2").2.1 _ _ rfl rfl,
    (RpcGetTxByHash_fails_iff sampleRpcDeps "h1").2.2.1 _ _ rfl rfl⟩

/-- C10. When `RpcGetTxByHash` succeeds with `tx`, the RPC call returned a raw
transaction of which `tx` carries the base58 encodings, in place: the
publisher's `Sig` and `PubKey`; for each index the `Sig` and `PubKey` of the
sign, with its `Algorithm` unchanged; for each index the signer; and the
actions are the raw actions, field by field, in the same order. -/
theorem RpcGetTxByHash_encodes (d : TxDeps) (txHash : String) (tx : Tx)
    (h : RpcGetTxByHash d txHash = (some tx, none)) :
    ∃ txRes, d.GetTxByHash txHash = .ok txRes ∧
      tx.Publisher.Sig = d.Base58Encode txRes.TxRaw.Publisher.Sig ∧
      tx.Publisher.PubKey = d.Base58Encode txRes.TxRaw.Publisher.PubKey ∧
      tx.Signs.length = txRes.TxRaw.Signs.length ∧
      (∀ (i : Nat) (v : RpcSignature), txRes.TxRaw.Signs[i]? = some v →
        tx.Signs[i]? = some
          { Algorithm := v.Algorithm, Sig := d.Base58Encode v.Sig
            PubKey := d.Base58Encode v.PubKey }) ∧
      tx.Signers.length = txRes.TxRaw.Signers.length ∧
      (∀ (i : Nat) (v : Bytes), txRes.TxRaw.Signers[i]? = some v →
        tx.Signers[i]? = some (d.Base58Encode v)) ∧
      tx.Actions.length = txRes.TxRaw.Actions.length ∧
      (∀ (i : Nat) (v : RpcAction), txRes.TxRaw.Actions[i]? = some v →
        tx.Actions[i]? = some
          { Contract := v.Contract, ActionName := v.ActionName, Data := v.Data }) := by
  unfold RpcGetTxByHash at h
  cases h1 : d.GetTxByHash txHash with
  | error e => simp [h1] at h
  | ok txRes =>
    cases h2 : d.GetTxReceiptByTxHash txHash with
    | error e => simp [h1, h2] at h
    | ok rc =>
      simp only [h1, h2, Prod.mk.injEq, Option.some.injEq, and_true] at h
      subst h
      refine ⟨txRes, rfl, rfl, rfl, by simp, ?_, by simp [byteSliceArrayToStringArray], ?_,
        by simp, ?_⟩
      · intro i v hv
        simp only [List.getElem?_map, hv, Option.map_some']
      · intro i v hv
        simp only [byteSliceArrayToStringArray, List.getElem?_map, hv, Option.map_some']
      · intro i v hv
        simp only [List.getElem?_map, hv, Option.map_some']

theorem RpcGetTxByHash_encodes_witness :
    ∃ txRes, sampleRpcDeps.GetTxByHash "h1" = .ok txRes ∧
      sampleFetchedTx.Publisher.Sig = sampleRpcDeps.Base58Encode txRes.TxRaw.Publisher.Sig ∧
      sampleFetchedTx.Publisher.PubKey =
        sampleRpcDeps.Base58Encode txRes.TxRaw.Publisher.PubKey ∧
      sampleFetchedTx.Signs.length = txRes.TxRaw.Signs.length ∧
      (∀ (i : Nat) (v : RpcSignature), txRes.TxRaw.Signs[i]? = some v →
        sampleFetchedTx.Signs[i]? = some
          { Algorithm := v.Algorithm, Sig := sampleRpcDeps.Base58Encode v.Sig
            PubKey := sampleRpcDeps.Base58Encode v.PubKey }) ∧
      sampleFetchedTx.Signers.length = txRes.TxRaw.Signers.length ∧
      (∀ (i : Nat) (v : Bytes), txRes.TxRaw.Signers[i]? = some v →
        sampleFetchedTx.Signers[i]? = some (sampleRpcDeps.Base58Encode v)) ∧
      sampleFetchedTx.Actions.length = txRes.TxRaw.Actions.length ∧
      (∀ (i : Nat) (v : RpcAction), txRes.TxRaw.Actions[i]? = some v →
        sampleFetchedTx.Actions[i]? = some
          { Contract := v.Contract, ActionName := v.ActionName, Data := v.Data }) :=
  RpcGetTxByHash_encodes sampleRpcDeps "h1" sampleFetchedTx (by decide)

/-! ## Claims C11 and C13: the transaction-level fields of a record -/

theorem flatTxAt_frame (d : TxDeps) (tx : Tx) (i : Nat) (v : ActionRaw) (r : FlatTx)
    (h : flatTxAt d tx i v = .ok r) :
    r.BlockNumber = tx.BlockNumber ∧ r.Time = tx.Time ∧ r.Expiration = tx.Expiration ∧
      r.GasPrice = tx.GasPrice ∧ r.GasLimit = tx.GasLimit ∧ r.Signers = tx.Signers ∧
      r.Signs = tx.Signs ∧ r.ActionName = v.ActionName ∧ r.Action = v := by
  unfold flatTxAt at h
  cases hx : transferFields d v with
  | error p => simp [hx] at h
  | ok x =>
    obtain ⟨f, t, a⟩ := x
    simp only [hx, Except.ok.injEq] at h
    subst h
    exact ⟨rfl, rfl, rfl, rfl, rfl, rfl, rfl, rfl, rfl⟩

/-- Every record that `ToFlatTx` returns was built by the loop iteration of
some action of the transaction. -/
theorem ToFlatTx_mem (d : TxDeps) (tx : Tx) (rs : List FlatTx) (r : FlatTx)
    (hrs : ToFlatTx d tx = .ok rs) (hr : r ∈ rs) :
    ∃ k v, tx.Actions[k]? = some v ∧ flatTxAt d tx k v = .ok r := by
  obtain ⟨k, hk, hget⟩ := List.getElem_of_mem hr
  obtain ⟨hlen, hrec⟩ := ToFlatTx_records d tx rs hrs
  have hk2 : k < tx.Actions.length := hlen ▸ hk
  obtain ⟨r1, h1, hat⟩ := hrec k tx.Actions[k] (List.getElem?_eq_getElem hk2)
  rw [List.getElem?_eq_getElem hk, Option.some.injEq] at h1
  refine ⟨k, tx.Actions[k], List.getElem?_eq_getElem hk2, ?_⟩
  rw [← hget, h1]
  exact hat

/-- C11. Every record that `ToFlatTx` returns copies `BlockNumber`, `Time`,
`Expiration`, `GasPrice`, `GasLimit`, `Signers` and `Signs` from the
transaction and has `ActionName` equal to the `ActionName` of its `Action`;
after the call the receiver is the transaction it was before. -/
theorem ToFlatTx_copies_tx_fields (d : TxDeps) (tx : Tx) (rs : List FlatTx)
    (hrs : ToFlatTx d tx = .ok rs) :
    (∀ r ∈ rs, r.BlockNumber = tx.BlockNumber ∧ r.Time = tx.Time ∧
        r.Expiration = tx.Expiration ∧ r.GasPrice = tx.GasPrice ∧ r.GasLimit = tx.GasLimit ∧
        r.Signers = tx.Signers ∧ r.Signs = tx.Signs ∧ r.ActionName = r.Action.ActionName) ∧
      ToFlatTxRun d tx = (tx, .ok rs) := by
  refine ⟨?_, by rw [ToFlatTxRun, hrs]⟩
  intro r hr
  obtain ⟨k, v, _, hat⟩ := ToFlatTx_mem d tx rs r hrs hr
  obtain ⟨h1, h2, h3, h4, h5, h6, h7, h8, h9⟩ := flatTxAt_frame d tx k v r hat
  exact ⟨h1, h2, h3, h4, h5, h6, h7, by rw [h8, h9]⟩

theorem ToFlatTx_copies_tx_fields_witness :
    (∀ r ∈ [sampleFlatTx 0 goodTransfer "addr1" "addr2" 42.5, sampleFlatTx 1 voteAction "" "" 0],
        r.BlockNumber = (sampleTx [goodTransfer, voteAction]).BlockNumber ∧
        r.Time = (sampleTx [goodTransfer, voteAction]).Time ∧
        r.Expiration = (sampleTx [goodTransfer, voteAction]).Expiration ∧
        r.GasPrice = (sampleTx [goodTransfer, voteAction]).GasPrice ∧
        r.GasLimit = (sampleTx [goodTransfer, voteAction]).GasLimit ∧
        r.Signers = (sampleTx [goodTransfer, voteAction]).Signers ∧
        r.Signs = (sampleTx [goodTransfer, voteAction]).Signs ∧
        r.ActionName = r.Action.ActionName) ∧
      ToFlatTxRun sampleTxDeps (sampleTx [goodTransfer, voteAction]) =
        (sampleTx [goodTransfer, voteAction],
          .ok [sampleFlatTx 0 goodTransfer "addr1" "addr2" 42.5,
            sampleFlatTx 1 voteAction "" "" 0]) :=
  ToFlatTx_copies_tx_fields sampleTxDeps (sampleTx [goodTransfer, voteAction]) _ rfl

/-- C13. When `RpcGetTxByHash` succeeds with `tx`, whatever the RPC responses,
`tx.Hash` is the requested hash and `tx.BlockNumber` is `0`; so every record
that `ToFlatTx` returns for `tx` has `BlockNumber = 0`. -/
theorem RpcGetTxByHash_hash_blockNumber (d : TxDeps) (txHash : String) (tx : Tx)
    (h : RpcGetTxByHash d txHash = (some tx, none)) :
    tx.Hash = txHash ∧ tx.BlockNumber = 0 ∧
      ∀ rs, ToFlatTx d tx = .ok rs → ∀ r ∈ rs, r.BlockNumber = 0 := by
  have key : tx.Hash = txHash ∧ tx.BlockNumber = 0 := by
    unfold RpcGetTxByHash at h
    cases h1 : d.GetTxByHash txHash with
    | error e => simp [h1] at h
    | ok txRes =>
      cases h2 : d.GetTxReceiptByTxHash txHash with
      | error e => simp [h1, h2] at h
      | ok rc =>
        simp only [h1, h2, Prod.mk.injEq, Option.some.injEq, and_true] at h
        subst h
        exact ⟨rfl, rfl⟩
  refine ⟨key.1, key.2, ?_⟩
  intro rs hrs r hr
  obtain ⟨k, v, _, hat⟩ := ToFlatTx_mem d tx rs r hrs hr
  rw [(flatTxAt_frame d tx k v r hat).1, key.2]

theorem RpcGetTxByHash_hash_blockNumber_witness :
    sampleFetchedTx.Hash = "h1" ∧ sampleFetchedTx.BlockNumber = 0 ∧
      ∀ rs, ToFlatTx sampleRpcDeps sampleFetchedTx = .ok rs → ∀ r ∈ rs, r.BlockNumber = 0 :=
  RpcGetTxByHash_hash_blockNumber sampleRpcDeps "h1" sampleFetchedTx (by decide)

/-! ## Claim C12: `main` waits for the jobs it launches -/

theorem schedInv_init : SchedInv initState := by
  refine ⟨rfl, by decide, by decide, ?_, ?_, by decide⟩
  · intro j; cases j <;> rfl
  · intro j h; cases h

theorem schedInv_mainStep (s : SchedState) (h : SchedInv s) : SchedInv (mainStep s) := by
  obtain ⟨pc, ws, launched, signaled, crashed⟩ := s
  obtain ⟨hc, hpc, hws, hl, hs, hret⟩ := h
  simp only at hc hpc hws hl hs hret
  unfold mainStep
  interval_cases pc
  all_goals simp only [main, List.getElem?_cons_zero, List.getElem?_cons_succ, List.getElem?_nil]
  all_goals (try split)
  all_goals
    refine ⟨hc, by simp, ?_, ?_, ?_, ?_⟩
    · simp [signaledCount] at hws ⊢
      omega
    · intro j
      have h1 := hl j
      cases j <;> simp [h1, launchPc]
    · intro j hj
      have h1 := hs j hj
      simp [h1]
    · first
        | (intro _; assumption)
        | exact hret
        | simp

theorem schedInv_jobDone (s : SchedState) (j : Job) (h : SchedInv s) :
    SchedInv (jobDone s j) := by
  obtain ⟨pc, ws, launched, signaled, crashed⟩ := s
  obtain ⟨hc, hpc, hws, hl, hs, hret⟩ := h
  simp only at hc hpc hws hl hs hret
  have b1 := Bool.toNat_le (signaled Job.UpdateBlocks)
  have b2 := Bool.toNat_le (signaled Job.ProcessFailedSyncBlocks)
  have b3 := Bool.toNat_le (signaled Job.UpdateTxns)
  have b4 := Bool.toNat_le (signaled Job.UpdateBlockPay)
  have b5 := Bool.toNat_le (signaled Job.UpdateAccounts)
  unfold jobDone
  simp only
  by_cases hen : launched j = true ∧ signaled j = false
  · obtain ⟨hlj, hsj⟩ := hen
    have hl1 := hl j
    rw [hlj] at hl1
    have hpc1 : 1 ≤ pc := by
      cases j <;> simp [launchPc] at hl1 <;> omega
    have hpos : ¬ ws - 1 < 0 := by
      simp only [signaledCount, hpc1, if_true] at hws
      cases j <;> simp [hsj] at hws <;> omega
    simp only [hlj, hsj, and_self, if_true, hpos, if_false]
    refine ⟨hc, hpc, ?_, hl, ?_, ?_⟩
    · simp only [signaledCount, hpc1, if_true] at hws ⊢
      cases j <;> simp [hsj] at hws ⊢ <;> omega
    · intro k hk
      by_cases hkj : k = j
      · rw [hkj]; exact hlj
      · simp only [hkj, if_false] at hk
        exact hs k hk
    · intro h7
      have := hret h7
      omega
  · simp only [hen, if_false]
    exact ⟨hc, hpc, hws, hl, hs, hret⟩

theorem schedInv_step (s : SchedState) (ev : Event) (h : SchedInv s) : SchedInv (step s ev) := by
  unfold step
  split_ifs
  · exact h
  · cases ev with
    | main => exact schedInv_mainStep s h
    | done j => exact schedInv_jobDone s j h

theorem schedInv_run (evs : List Event) : ∀ s, SchedInv s → SchedInv (run s evs) := by
  induction evs with
  | nil => intro s h; exact h
  | cons ev evs ih => intro s h; exact ih _ (schedInv_step s ev h)

/-- C12. `main` asks its wait group to wait for as many completions as it
launches jobs, namely the five jobs; and on every schedule on which `main`
has returned, each of the five jobs was launched and has signaled. -/
theorem main_returns_after_all_jobs_signaled (evs : List Event)
    (h : (run initState evs).pc = main.length) :
    waitCount main = (launchedJobs main).length ∧ (∀ j, j ∈ launchedJobs main) ∧
      ∀ j, (run initState evs).launched j = true ∧ (run initState evs).signaled j = true := by
  refine ⟨by decide, by intro j; cases j <;> decide, ?_⟩
  obtain ⟨_, _, hws, hl, _, hret⟩ := schedInv_run evs initState schedInv_init
  have h7 : (run initState evs).pc = 7 := h
  have hz := hret h7
  have b1 := Bool.toNat_le ((run initState evs).signaled Job.UpdateBlocks)
  have b2 := Bool.toNat_le ((run initState evs).signaled Job.ProcessFailedSyncBlocks)
  have b3 := Bool.toNat_le ((run initState evs).signaled Job.UpdateTxns)
  have b4 := Bool.toNat_le ((run initState evs).signaled Job.UpdateBlockPay)
  have b5 := Bool.toNat_le ((run initState evs).signaled Job.UpdateAccounts)
  simp only [signaledCount, h7, hz] at hws
  intro j
  constructor
  · rw [hl j, h7]
    cases j <;> decide
  · cases j
    all_goals
      rw [← Bool.toNat_eq_one]
      omega

theorem main_returns_after_all_jobs_signaled_witness :
    waitCount main = (launchedJobs main).length ∧ (∀ j, j ∈ launchedJobs main) ∧
      ∀ j, (run initState sampleSchedule).launched j = true ∧
        (run initState sampleSchedule).signaled j = true :=
  main_returns_after_all_jobs_signaled sampleSchedule (by decide)

/-- While no job has signaled, `main` stays blocked in `ws.Wait()` however
often it is scheduled. -/
theorem main_blocked_until_signaled :
    (run initState [Event.main, Event.main, Event.main, Event.main, Event.main, Event.main,
      Event.main, Event.main]).pc = 6 := by
  decide

end Explorer
